import Mathlib

/-!
Verification of the otr3 protocol engine against its specification.

The development shallowly embeds the serialization helpers found in the
repository sources (`appendWord`, `appendBytes`, `appendMPI`) and models,
from the specification, the parts of the engine whose implementation files
are not part of the provided sources (the SMP state machine dispatch, the
data-message generator, `End`, the whitespace-tag handling of `Receive`,
the binary-message dispatch of `Receive`, and outbound fragmentation).
Bytes are `Nat` values below 256; big integers are `Nat`; machine words are
`Nat` with explicit reductions modulo 2^32 or 2^64 where Go's fixed-width
arithmetic matters.
-/

namespace Otr3

/-- Fuel-driven digit extraction; the fuel bounds the recursion depth and is
irrelevant as soon as it is at least the argument. -/
def natBytesAux : Nat → Nat → List Nat
  | 0, _ => []
  | fuel + 1, n => if n = 0 then [] else natBytesAux fuel (n / 256) ++ [n % 256]

/-- Big-endian minimal byte representation of a natural number, the
embedding of Go's `big.Int.Bytes()`: empty for zero, most significant byte
first, no leading zero byte. -/
def natBytes (n : Nat) : List Nat :=
  natBytesAux n n

theorem natBytesAux_zero (f : Nat) : natBytesAux f 0 = [] := by
  cases f <;> simp [natBytesAux]

theorem natBytesAux_irrel (f : Nat) : ∀ f' n, n ≤ f → n ≤ f' →
    natBytesAux f n = natBytesAux f' n := by
  induction f with
  | zero => intro f' n h _; interval_cases n; exact (natBytesAux_zero f').symm
  | succ g ih =>
    intro f' n h h'
    by_cases hn : n = 0
    · subst hn; rw [natBytesAux_zero, natBytesAux_zero]
    · obtain ⟨g', rfl⟩ : ∃ g', f' = g' + 1 := ⟨f' - 1, by omega⟩
      simp only [natBytesAux, hn, if_false]
      have hd : n / 256 < n := Nat.div_lt_self (Nat.pos_of_ne_zero hn) (by norm_num)
      rw [ih g' (n / 256) (by omega) (by omega)]

/-- Embedding of `appendWord` (serialization helpers source): append the
four big-endian bytes of a 32-bit word. Taking `/` and `%` by powers of two
on a `Nat` agrees with Go's shifts on `uint32` for every argument, because
each extracted byte only depends on the low 32 bits. -/
def appendWord (l : List Nat) (r : Nat) : List Nat :=
  l ++ [r / 2 ^ 24 % 256, r / 2 ^ 16 % 256, r / 2 ^ 8 % 256, r % 256]

/-- Embedding of `appendBytes`: length-prefixed byte string. -/
def appendBytes (l r : List Nat) : List Nat :=
  appendWord l r.length ++ r

/-- Embedding of `appendMPI`: append the 4-byte big-endian count of the
minimal magnitude bytes of `x`, then those bytes. -/
def appendMPI (l : List Nat) (x : Nat) : List Nat :=
  appendWord l (natBytes x).length ++ natBytes x

/-- Embedding of `appendMPIs`: fold `appendMPI` over a list of MPIs. -/
def appendMPIs (l : List Nat) (xs : List Nat) : List Nat :=
  xs.foldl appendMPI l

/-- Big-endian value of a byte list. -/
def beValue (bs : List Nat) : Nat :=
  bs.foldl (fun a d => a * 256 + d) 0

/-- Modelled from the spec: `parseMPI` is not among the provided source
files; the spec defines the MPI wire format as a 4-byte big-endian length
followed by the big-endian unsigned magnitude bytes. `parseMPI` reads that
format and returns the value together with the unconsumed remainder, or
`none` when the input is too short. -/
def parseMPI (b : List Nat) : Option (Nat × List Nat) :=
  match b with
  | l0 :: l1 :: l2 :: l3 :: rest =>
    let len := ((l0 * 256 + l1) * 256 + l2) * 256 + l3
    if rest.length < len then none
    else some (beValue (rest.take len), rest.drop len)
  | _ => none

theorem natBytes_zero : natBytes 0 = [] :=
  rfl

theorem natBytes_succ (n : Nat) (h : n ≠ 0) :
    natBytes n = natBytes (n / 256) ++ [n % 256] := by
  obtain ⟨m, rfl⟩ : ∃ m, n = m + 1 := ⟨n - 1, by omega⟩
  show natBytesAux (m + 1) (m + 1) = _
  simp only [natBytesAux, h, if_false]
  have hd : (m + 1) / 256 < m + 1 := Nat.div_lt_self (by omega) (by norm_num)
  rw [natBytesAux_irrel m ((m + 1) / 256) ((m + 1) / 256) (by omega) (le_refl _)]
  rfl

theorem beValue_natBytes (n : Nat) : beValue (natBytes n) = n := by
  induction n using Nat.strong_induction_on with
  | _ n ih =>
    by_cases h : n = 0
    · subst h; simp [natBytes_zero, beValue]
    · rw [natBytes_succ n h]
      unfold beValue
      rw [List.foldl_append]
      have hlt : n / 256 < n := Nat.div_lt_self (Nat.pos_of_ne_zero h) (by norm_num)
      have := ih (n / 256) hlt
      unfold beValue at this
      simp [this]
      omega

theorem natBytes_head_pos (n : Nat) (h : n ≠ 0) :
    ∃ b t, natBytes n = b :: t ∧ b ≠ 0 := by
  induction n using Nat.strong_induction_on with
  | _ n ih =>
    rw [natBytes_succ n h]
    by_cases h2 : n / 256 = 0
    · rw [h2, natBytes_zero]
      refine ⟨n % 256, [], by simp, ?_⟩
      have : n < 256 := by omega
      have : n % 256 = n := Nat.mod_eq_of_lt this
      omega
    · have hlt : n / 256 < n := Nat.div_lt_self (Nat.pos_of_ne_zero h) (by norm_num)
      obtain ⟨b, t, he, hb⟩ := ih (n / 256) hlt h2
      exact ⟨b, t ++ [n % 256], by rw [he]; simp, hb⟩

theorem beValue_word (L : Nat) (h : L < 2 ^ 32) :
    ((L / 2 ^ 24 % 256 * 256 + L / 2 ^ 16 % 256) * 256 + L / 2 ^ 8 % 256) * 256
      + L % 256 = L := by
  omega

/-- C8: MPI round-trip: for every non-negative big integer `x` whose
magnitude fits the 4-byte length field (every value a Go slice can carry),
parsing the encoding produced by `appendMPI` recovers `x` exactly and
consumes the whole encoding. -/
theorem parseMPI_appendMPI_roundtrip (x : Nat) (h : (natBytes x).length < 2 ^ 32) :
    parseMPI (appendMPI [] x) = some (x, []) := by
  have hw := beValue_word (natBytes x).length h
  simp only [appendMPI, appendWord, List.nil_append, List.cons_append]
  simp only [parseMPI, List.nil_append]
  rw [hw]
  simp [beValue_natBytes]

/-- Witness for C8 at `x = 772` (bytes `[3, 4]`). -/
theorem parseMPI_appendMPI_roundtrip_witness :
    (natBytes 772).length < 2 ^ 32 ∧ parseMPI (appendMPI [] 772) = some (772, []) :=
  ⟨by decide, parseMPI_appendMPI_roundtrip 772 (by decide)⟩

/-- C9: the function `appendMPI l x` appends to `l` exactly `4 + len(magnitude)`
bytes: the 4-byte big-endian count of the minimal big-endian magnitude
bytes of `x`, followed by those bytes (whose leading byte is nonzero when
`x ≠ 0`); in the edge case `x = 0` the magnitude is empty and
`appendMPI [] 0` is exactly the four bytes `00 00 00 00`. -/
theorem appendMPI_spec (l : List Nat) (x : Nat) (h : (natBytes x).length < 2 ^ 32) :
    appendMPI l x = l ++ appendWord [] (natBytes x).length ++ natBytes x
    ∧ (appendMPI l x).length = l.length + (4 + (natBytes x).length)
    ∧ beValue (appendWord [] (natBytes x).length) = (natBytes x).length
    ∧ (x ≠ 0 → ∃ b t, natBytes x = b :: t ∧ b ≠ 0)
    ∧ appendMPI [] 0 = [0, 0, 0, 0] := by
  refine ⟨?_, ?_, ?_, ?_, ?_⟩
  · simp [appendMPI, appendWord]
  · simp [appendMPI, appendWord]
    omega
  · have hw := beValue_word (natBytes x).length h
    simp only [appendWord, List.nil_append, beValue, List.foldl]
    omega
  · exact natBytes_head_pos x
  · simp [appendMPI, appendWord, natBytes_zero]

/-- Witness for C9 at the input `l = [9]`, `x = 258` (bytes `[1, 2]`). -/
theorem appendMPI_spec_witness :
    (natBytes 258).length < 2 ^ 32 ∧
    (appendMPI [9] 258 = [9] ++ appendWord [] (natBytes 258).length ++ natBytes 258
      ∧ (appendMPI [9] 258).length = [9].length + (4 + (natBytes 258).length)
      ∧ beValue (appendWord [] (natBytes 258).length) = (natBytes 258).length
      ∧ (258 ≠ 0 → ∃ b t, natBytes 258 = b :: t ∧ b ≠ 0)
      ∧ appendMPI [] 0 = [0, 0, 0, 0]) :=
  ⟨by decide, appendMPI_spec [9] 258 (by decide)⟩

/-- A Type-Length-Value record carried inside a decrypted payload (§6). -/
structure tlv where
  tlvType : Nat
  tlvValue : List Nat
deriving DecidableEq

/-- TLV emitted by `smpMessageAbort{}.tlv()`: type 6, empty body (§4.5). -/
def smpMessageAbortTLV : tlv := ⟨6, []⟩

/-- SMP message 1: commitments `g2a`, `g3a` with their knowledge proofs
`(c2, d2)` and `(c3, d3)`, plus the optional question (§4.6). -/
structure smp1Message where
  g2a : Nat
  c2 : Nat
  d2 : Nat
  g3a : Nat
  c3 : Nat
  d3 : Nat
  hasQuestion : Bool := false
  question : String := ""
deriving DecidableEq

/-- SMP message 2: `g2b`, `g3b`, `pb`, `qb` with their proofs. -/
structure smp2Message where
  g2b : Nat
  c2 : Nat
  d2 : Nat
  g3b : Nat
  c3 : Nat
  d3 : Nat
  pb : Nat
  qb : Nat
  cp : Nat
  d5 : Nat
  d6 : Nat
deriving DecidableEq

/-- SMP message 3: `pa`, `qa`, `ra` with their proofs. -/
structure smp3Message where
  pa : Nat
  qa : Nat
  cp : Nat
  d5 : Nat
  d6 : Nat
  ra : Nat
  cr : Nat
  d7 : Nat
deriving DecidableEq

/-- SMP message 4: `rb` with its proof. -/
structure smp4Message where
  rb : Nat
  cr : Nat
  d7 : Nat
deriving DecidableEq

/-- Incoming SMP messages as a tagged union (spec §9 design note). -/
inductive smpMessage
  | m1 (m : smp1Message)
  | m2 (m : smp2Message)
  | m3 (m : smp3Message)
  | m4 (m : smp4Message)
  | abort
deriving DecidableEq

/-- SMP states as a tagged variant (§3 data model, §9 design note). -/
inductive smpState
  | expect1
  | waitingForSecret (msg : smp1Message)
  | expect2
  | expect3
  | expect4
deriving DecidableEq

/-- SMP UI events (source `smp_events.go`). -/
inductive SMPEvent
  | eventError
  | eventAbort
  | cheated
  | askForAnswer
  | askForSecret
  | inProgress
  | success
  | failure
deriving DecidableEq

/-- One emitted SMP event: kind, progress percent, question string. -/
structure smpEventRecord where
  ev : SMPEvent
  percent : Nat
  question : String
deriving DecidableEq

/-- Errors surfaced by the engine (§7); `otrErr s` embeds `newOtrError s`. -/
inductive otrError
  | otrErr (s : String)
  | wrongProtocolVersion
  | invalidVersion
  | invalidOTRMessage
  | encryptedMessageWithNoSecureChannel
  | shortRandomRead
deriving DecidableEq

/-- Group-element range check of §4.6: `2 ≤ v ≤ modulus − 2`. -/
def validGroupElement (p v : Nat) : Bool :=
  decide (2 ≤ v ∧ v ≤ p - 2)

/-- Modelled from the spec: the per-message validation of SMP message 1
(§4.6) — each received group element must lie in `[2, modulus − 2]`, else
the check fails with an error naming the field; the Fiat–Shamir proof
verification, whose hash computation the spec does not give numerically, is
abstracted as the parameter `zkp1`. -/
def verifySMP1 (p : Nat) (zkp1 : smp1Message → Option otrError)
    (m : smp1Message) : Option otrError :=
  if ¬ validGroupElement p m.g2a then some (.otrErr "g2a is an invalid group element")
  else if ¬ validGroupElement p m.g3a then some (.otrErr "g3a is an invalid group element")
  else zkp1 m

/-- Outcome of processing one SMP message: the next SMP state, the reply
TLV (if any), the emitted UI events, and the error (if any). -/
structure smpResult where
  newState : smpState
  toSend : Option tlv
  events : List smpEventRecord
  err : Option otrError

/-- Modelled from the spec: the SMP state-machine dispatch (§4.6 table),
whose implementation file is not among the provided sources. A received
abort resets the state to `expect1` with no reply and no error; a message 1
in `expect1` is validated by `verifySMP1` (failure emits `Cheated` at 0%
and returns the error, success moves to `waitingForSecret` and emits
`AskForSecret` at 25% or `AskForAnswer` with the question); messages 2–4
arriving in their matching states are delegated to the abstract round
handlers `step2`, `step3`, `step4`, since their verification and reply
generation use cryptographic material no claim here depends on; every
other combination is answered with an SMP abort TLV and the state is reset
to `expect1`, with no error. -/
def receiveSMP (p : Nat) (zkp1 : smp1Message → Option otrError)
    (step2 : smp2Message → smpResult) (step3 : smp3Message → smpResult)
    (step4 : smp4Message → smpResult) (st : smpState) (m : smpMessage) : smpResult :=
  match st, m with
  | _, .abort => ⟨.expect1, none, [], none⟩
  | .expect1, .m1 msg =>
    match verifySMP1 p zkp1 msg with
    | some e => ⟨.expect1, none, [⟨.cheated, 0, ""⟩], some e⟩
    | none =>
      ⟨.waitingForSecret msg, none,
        [if msg.hasQuestion then ⟨.askForAnswer, 25, msg.question⟩
          else ⟨.askForSecret, 25, ""⟩], none⟩
  | .expect2, .m2 msg => step2 msg
  | .expect3, .m3 msg => step3 msg
  | .expect4, .m4 msg => step4 msg
  | _, _ => ⟨.expect1, some smpMessageAbortTLV, [], none⟩

/-- The message kinds that do not match the given SMP state: message 2, 3
or 4 in `expect1`; 1, 3 or 4 in `expect2`; 1, 2 or 4 in `expect3`; 1, 2 or
3 in `expect4`. -/
def unexpectedSMP (st : smpState) (m : smpMessage) : Bool :=
  match st, m with
  | .expect1, .m2 _ | .expect1, .m3 _ | .expect1, .m4 _ => true
  | .expect2, .m1 _ | .expect2, .m3 _ | .expect2, .m4 _ => true
  | .expect3, .m1 _ | .expect3, .m2 _ | .expect3, .m4 _ => true
  | .expect4, .m1 _ | .expect4, .m2 _ | .expect4, .m3 _ => true
  | _, _ => false

/-- C1: for every SMP state and every received SMP message whose kind does
not match that state, processing the message resets the SMP state to
`expect1`, produces an SMP abort TLV as the reply, and returns no error. -/
theorem smp_unexpected_message_resets_and_aborts (p : Nat)
    (zkp1 : smp1Message → Option otrError)
    (step2 : smp2Message → smpResult) (step3 : smp3Message → smpResult)
    (step4 : smp4Message → smpResult) (st : smpState) (m : smpMessage)
    (h : unexpectedSMP st m = true) :
    (receiveSMP p zkp1 step2 step3 step4 st m).newState = .expect1
    ∧ (receiveSMP p zkp1 step2 step3 step4 st m).toSend = some smpMessageAbortTLV
    ∧ (receiveSMP p zkp1 step2 step3 step4 st m).err = none := by
  cases st <;> cases m <;> simp_all [unexpectedSMP, receiveSMP]

/-- Witness for C1: message 1 received in state `expect3` (the scenario of
the unexpected-message test) with trivial round handlers. -/
theorem smp_unexpected_message_resets_and_aborts_witness :
    unexpectedSMP .expect3 (.m1 ⟨2, 0, 0, 2, 0, 0, false, ""⟩) = true
    ∧ ((receiveSMP 7 (fun _ => none) (fun _ => ⟨.expect1, none, [], none⟩)
        (fun _ => ⟨.expect1, none, [], none⟩) (fun _ => ⟨.expect1, none, [], none⟩)
        .expect3 (.m1 ⟨2, 0, 0, 2, 0, 0, false, ""⟩)).newState = .expect1
      ∧ (receiveSMP 7 (fun _ => none) (fun _ => ⟨.expect1, none, [], none⟩)
        (fun _ => ⟨.expect1, none, [], none⟩) (fun _ => ⟨.expect1, none, [], none⟩)
        .expect3 (.m1 ⟨2, 0, 0, 2, 0, 0, false, ""⟩)).toSend = some smpMessageAbortTLV
      ∧ (receiveSMP 7 (fun _ => none) (fun _ => ⟨.expect1, none, [], none⟩)
        (fun _ => ⟨.expect1, none, [], none⟩) (fun _ => ⟨.expect1, none, [], none⟩)
        .expect3 (.m1 ⟨2, 0, 0, 2, 0, 0, false, ""⟩)).err = none) :=
  ⟨rfl, smp_unexpected_message_resets_and_aborts 7 _ _ _ _ _ _ rfl⟩

/-- C10: receiving an SMP abort message from any SMP state resets the SMP
state to `expect1`, returns no reply message and no error — in particular
no abort TLV is sent back in response to a received abort. -/
theorem smp_abort_resets_state (p : Nat) (zkp1 : smp1Message → Option otrError)
    (step2 : smp2Message → smpResult) (step3 : smp3Message → smpResult)
    (step4 : smp4Message → smpResult) (st : smpState) :
    (receiveSMP p zkp1 step2 step3 step4 st .abort).newState = .expect1
    ∧ (receiveSMP p zkp1 step2 step3 step4 st .abort).toSend = none
    ∧ (receiveSMP p zkp1 step2 step3 step4 st .abort).err = none := by
  cases st <;> exact ⟨rfl, rfl, rfl⟩

/-- C6: in state `expect1`, an SMP message 1 whose `g2a` equals 1 (outside
`[2, modulus − 2]`) makes `receiveMessage1` fail with the error
`"g2a is an invalid group element"` — naming the offending field — and
emit the SMP event `Cheated` with percent 0. -/
theorem smp_invalid_g2a_cheated (p : Nat) (zkp1 : smp1Message → Option otrError)
    (step2 : smp2Message → smpResult) (step3 : smp3Message → smpResult)
    (step4 : smp4Message → smpResult) (m : smp1Message) (h : m.g2a = 1) :
    (receiveSMP p zkp1 step2 step3 step4 .expect1 (.m1 m)).err
        = some (.otrErr "g2a is an invalid group element")
    ∧ (receiveSMP p zkp1 step2 step3 step4 .expect1 (.m1 m)).events
        = [⟨.cheated, 0, ""⟩] := by
  have hv : validGroupElement p m.g2a = false := by
    simp [validGroupElement, h]
  simp [receiveSMP, verifySMP1, hv]

/-- Witness for C6: the test's message `smp1Message{g2a: big.NewInt(1)}`. -/
theorem smp_invalid_g2a_cheated_witness :
    (⟨1, 0, 0, 0, 0, 0, false, ""⟩ : smp1Message).g2a = 1
    ∧ ((receiveSMP 7 (fun _ => none) (fun _ => ⟨.expect1, none, [], none⟩)
        (fun _ => ⟨.expect1, none, [], none⟩) (fun _ => ⟨.expect1, none, [], none⟩)
        .expect1 (.m1 ⟨1, 0, 0, 0, 0, 0, false, ""⟩)).err
          = some (.otrErr "g2a is an invalid group element")
      ∧ (receiveSMP 7 (fun _ => none) (fun _ => ⟨.expect1, none, [], none⟩)
        (fun _ => ⟨.expect1, none, [], none⟩) (fun _ => ⟨.expect1, none, [], none⟩)
        .expect1 (.m1 ⟨1, 0, 0, 0, 0, 0, false, ""⟩)).events = [⟨.cheated, 0, ""⟩]) :=
  ⟨rfl, smp_invalid_g2a_cheated 7 _ _ _ _ _ rfl⟩

/-- Protocol versions the engine speaks (§3): `otrV2{}` and `otrV3{}`. -/
inductive otrVersion
  | v2
  | v3
deriving DecidableEq

/-- Policy flag set (§3); the Go bitset is modelled as one Boolean per
flag. -/
structure policyFlags where
  allowV1 : Bool := false
  allowV2 : Bool := false
  allowV3 : Bool := false
  requireEncryption : Bool := false
  sendWhitespaceTag : Bool := false
  whitespaceStartAKE : Bool := false
  errorStartAKE : Bool := false
deriving DecidableEq

/-- Message state of a conversation (§3): `plainText`, `encrypted`,
`finished`. -/
inductive messageState
  | plainText
  | encrypted
  | finished
deriving DecidableEq

/-- A DH key pair (§3). -/
structure dhKeyPair where
  priv : Nat := 0
  pub : Nat := 0
deriving DecidableEq

/-- Key-management context (§3): key IDs, the rolling DH key pairs, the
64-bit outbound counter and the retired MAC keys awaiting disclosure. -/
structure keyManagementContext where
  ourKeyID : Nat := 0
  theirKeyID : Nat := 0
  ourCurrentDHKeys : dhKeyPair := {}
  ourPreviousDHKeys : dhKeyPair := {}
  theirCurrentDHPubKey : Nat := 0
  theirPreviousDHPubKey : Nat := 0
  ourCounter : Nat := 0
  theirCounter : Nat := 0
  oldMACKeys : List (List Nat) := []
deriving DecidableEq

/-- The per-conversation state the claims touch (§3): negotiated version,
policy flags, message state, key-management context, SMP state and the
outbound fragment size. -/
structure Conversation where
  version : Option otrVersion := none
  policies : policyFlags := {}
  msgState : messageState := .plainText
  keys : keyManagementContext := {}
  smpstate : smpState := .expect1
  fragmentSize : Nat := 0

/-- TLV type of the disconnect record (§4.5). -/
def tlvTypeDisconnected : Nat := 1

/-- Big-endian 8-byte encoding of a 64-bit counter; each byte depends only
on the low 64 bits, matching Go's `uint64` shifts. -/
def be8 (n : Nat) : List Nat :=
  [n / 2 ^ 56 % 256, n / 2 ^ 48 % 256, n / 2 ^ 40 % 256, n / 2 ^ 32 % 256,
    n / 2 ^ 24 % 256, n / 2 ^ 16 % 256, n / 2 ^ 8 % 256, n % 256]

/-- An outbound data message (§4.3, §6). AES encryption and the MAC are
not modelled: the plaintext and the TLV section are carried directly. -/
structure dataMsg where
  senderKeyID : Nat
  recipientKeyID : Nat
  y : Nat
  topHalfCtr : List Nat
  plain : List Nat
  tlvs : List tlv
  oldMACKeys : List (List Nat)
deriving DecidableEq

/-- Modelled from the spec: `genDataMsg` (§4.3 outbound, steps 1–4 and 6),
whose implementation file is not among the provided sources. It chooses
`senderKeyID = ourKeyID − 1` and `recipientKeyID = theirKeyID`, advertises
`y = ourCurrentDHKeys.pub`, sets `topHalfCtr` to the 8-byte big-endian
encoding of `ourCounter` and then increments `ourCounter`, and drains
`oldMACKeys` into the message. Encryption and the MAC (steps 5 and 7) are
not modelled; the plaintext and TLVs are carried in the clear. -/
def genDataMsg (c : Conversation) (plain : List Nat) (tlvs : List tlv) :
    dataMsg × Conversation :=
  (⟨c.keys.ourKeyID - 1, c.keys.theirKeyID, c.keys.ourCurrentDHKeys.pub,
      be8 c.keys.ourCounter, plain, tlvs, c.keys.oldMACKeys⟩,
    { c with keys :=
      { c.keys with ourCounter := c.keys.ourCounter + 1, oldMACKeys := [] } })

/-- Modelled from the spec: `End` (§4.7 table). In `plaintext` it is a
no-op returning nothing; in `finished` it only resets the message state to
`plaintext`; in `encrypted` it sends one data message whose TLV section is
exactly a disconnect TLV (type 1) and then resets to `plaintext`. The
outer base64 and fragmentation framing of the returned message is outside
the engine core (§1) and is not applied here. -/
def End (c : Conversation) : Conversation × List dataMsg :=
  match c.msgState with
  | .plainText => (c, [])
  | .finished => ({ c with msgState := .plainText }, [])
  | .encrypted =>
    let r := genDataMsg c [] [⟨tlvTypeDisconnected, []⟩]
    ({ r.2 with msgState := .plainText }, [r.1])

/-- C2: `End` is state-dependent — in `plaintext` it returns no messages
and leaves the conversation unchanged; in `finished` it sets the message
state to `plaintext` and returns no messages; in `encrypted` it returns
exactly one outbound data message whose TLV section contains only a
disconnect TLV (type 1) and sets the message state to `plaintext`. -/
theorem end_state_dependent (c : Conversation) :
    (c.msgState = .plainText → End c = (c, []))
    ∧ (c.msgState = .finished →
        (End c).1.msgState = .plainText ∧ (End c).2 = [])
    ∧ (c.msgState = .encrypted →
        (End c).1.msgState = .plainText
        ∧ ∃ m, (End c).2 = [m] ∧ m.tlvs = [⟨tlvTypeDisconnected, []⟩]) := by
  refine ⟨fun h => ?_, fun h => ?_, fun h => ?_⟩
  · simp [End, h]
  · simp [End, h]
  · refine ⟨?_, (genDataMsg c [] [⟨tlvTypeDisconnected, []⟩]).1, ?_, rfl⟩
    · simp [End, h]
    · simp [End, h]

/-- Witness for C2: the three message states on otherwise default
conversations. -/
theorem end_state_dependent_witness :
    (({ } : Conversation).msgState = .plainText
      ∧ End { } = ({ }, []))
    ∧ (({ msgState := .finished } : Conversation).msgState = .finished
      ∧ (End { msgState := .finished }).1.msgState = .plainText
      ∧ (End { msgState := .finished }).2 = [])
    ∧ (({ msgState := .encrypted } : Conversation).msgState = .encrypted
      ∧ (End { msgState := .encrypted }).1.msgState = .plainText
      ∧ ∃ m, (End { msgState := .encrypted }).2 = [m]
          ∧ m.tlvs = [⟨tlvTypeDisconnected, []⟩]) :=
  ⟨⟨rfl, (end_state_dependent { }).1 rfl⟩,
    ⟨rfl, (end_state_dependent { msgState := .finished }).2.1 rfl⟩,
    ⟨rfl, (end_state_dependent { msgState := .encrypted }).2.2 rfl⟩⟩

/-- C4: `genDataMsg` sets `senderKeyID = ourKeyID − 1`,
`recipientKeyID = theirKeyID`, advertises `y = ourCurrentDHKeys.pub`, sets
`topHalfCtr` to the 8-byte big-endian encoding of the current `ourCounter`
(exactly: it has 8 bytes and decodes back to the counter), and increments
`ourCounter` by exactly one, so the counter strictly increases across
outbound data messages. The hypothesis is the data-model invariant that
the counter is a 64-bit value. -/
theorem genDataMsg_spec (c : Conversation) (plain : List Nat) (tlvs : List tlv)
    (h : c.keys.ourCounter < 2 ^ 64) :
    (genDataMsg c plain tlvs).1.senderKeyID = c.keys.ourKeyID - 1
    ∧ (genDataMsg c plain tlvs).1.recipientKeyID = c.keys.theirKeyID
    ∧ (genDataMsg c plain tlvs).1.y = c.keys.ourCurrentDHKeys.pub
    ∧ (genDataMsg c plain tlvs).1.topHalfCtr = be8 c.keys.ourCounter
    ∧ (genDataMsg c plain tlvs).1.topHalfCtr.length = 8
    ∧ beValue (genDataMsg c plain tlvs).1.topHalfCtr = c.keys.ourCounter
    ∧ (genDataMsg c plain tlvs).2.keys.ourCounter = c.keys.ourCounter + 1
    ∧ c.keys.ourCounter < (genDataMsg c plain tlvs).2.keys.ourCounter := by
  refine ⟨rfl, rfl, rfl, rfl, rfl, ?_, rfl, by simp [genDataMsg]⟩
  show beValue (be8 c.keys.ourCounter) = c.keys.ourCounter
  simp only [beValue, be8, List.foldl]
  omega

/-- Conversation fixture mirroring the key-exchange test: key IDs 2 and 3,
counter `0x1011121314`. -/
def keyExchangeKeys : keyManagementContext :=
  { ourKeyID := 2, theirKeyID := 3, ourCounter := 0x1011121314,
    ourCurrentDHKeys := { pub := 9 } }

/-- The conversation carrying `keyExchangeKeys`. -/
def keyExchangeFixture : Conversation :=
  { keys := keyExchangeKeys }

/-- Witness for C4 on `keyExchangeFixture`: the counter's big-endian bytes
are `00 00 00 10 11 12 13 14`. -/
theorem genDataMsg_spec_witness :
    keyExchangeFixture.keys.ourCounter < 2 ^ 64
    ∧ (genDataMsg keyExchangeFixture [] []).1.topHalfCtr
        = [0, 0, 0, 0x10, 0x11, 0x12, 0x13, 0x14]
    ∧ (genDataMsg keyExchangeFixture [] []).1.senderKeyID = 1
    ∧ (genDataMsg keyExchangeFixture [] []).2.keys.ourCounter = 0x1011121314 + 1 :=
  ⟨by decide, by decide,
    (genDataMsg_spec keyExchangeFixture [] [] (by decide)).1,
    (genDataMsg_spec keyExchangeFixture [] [] (by decide)).2.2.2.2.2.2.1⟩

/-- Wire version bytes of the message header (§6). -/
def versionBytes : otrVersion → List Nat
  | .v2 => [0, 2]
  | .v3 => [0, 3]

/-- Message type byte of a DH-Commit (§6). -/
def msgTypeDHCommit : Nat := 0x02

/-- Message type byte of a data message (§6). -/
def msgTypeData : Nat := 0x03

/-- Modelled from the spec: the whitespace-tag row of Receive's input
table (§4.1), whose implementation file is not among the provided sources.
`advV2` and `advV3` say which versions the tag's 8-byte version markers
advertise. When the `whitespaceStartAKE` policy is not set the trigger is
refused with `errInvalidOTRMessage`; otherwise the AKE starts at the
highest version both advertised and allowed, returning that version and
the emitted DH-Commit (abstracted to its wire header, version bytes
followed by the type byte `0x02`); when no advertised version is allowed,
the call fails with `errInvalidVersion`. An `Except` error carries no
output. -/
def receiveTaggedPlaintext (c : Conversation) (advV2 advV3 : Bool) :
    Except otrError (otrVersion × List Nat) :=
  if ¬ c.policies.whitespaceStartAKE then .error .invalidOTRMessage
  else if advV3 && c.policies.allowV3 then
    .ok (.v3, versionBytes .v3 ++ [msgTypeDHCommit])
  else if advV2 && c.policies.allowV2 then
    .ok (.v2, versionBytes .v2 ++ [msgTypeDHCommit])
  else .error .invalidVersion

/-- C3: on Receive of a whitespace-tagged message — with the
`whitespaceStartAKE` policy set, a tag advertising a mutually allowed
version starts the AKE at the highest mutually allowed version and returns
a DH-Commit of that version; a tag advertising only versions the local
policy does not allow fails with `errInvalidVersion` and returns no
output; without the `whitespaceStartAKE` policy, Receive returns
`errInvalidOTRMessage` and no output. -/
theorem whitespace_tag_receive (c : Conversation) (advV2 advV3 : Bool) :
    (c.policies.whitespaceStartAKE = true →
      ((advV3 && c.policies.allowV3) = true →
        receiveTaggedPlaintext c advV2 advV3
          = .ok (.v3, versionBytes .v3 ++ [msgTypeDHCommit]))
      ∧ ((advV3 && c.policies.allowV3) = false →
          (advV2 && c.policies.allowV2) = true →
        receiveTaggedPlaintext c advV2 advV3
          = .ok (.v2, versionBytes .v2 ++ [msgTypeDHCommit]))
      ∧ ((advV3 && c.policies.allowV3) = false →
          (advV2 && c.policies.allowV2) = false →
        receiveTaggedPlaintext c advV2 advV3 = .error .invalidVersion))
    ∧ (c.policies.whitespaceStartAKE = false →
        receiveTaggedPlaintext c advV2 advV3 = .error .invalidOTRMessage) := by
  refine ⟨fun hp => ⟨fun h3 => ?_, fun h3 h2 => ?_, fun h3 h2 => ?_⟩, fun hp => ?_⟩
  · simp [receiveTaggedPlaintext, hp, h3]
  · simp [receiveTaggedPlaintext, hp, h3, h2]
  · simp [receiveTaggedPlaintext, hp, h3, h2]
  · simp [receiveTaggedPlaintext, hp]

/-- Policy fixture of the accept-v3 whitespace-tag test: `allowV2`,
`allowV3` and `whitespaceStartAKE`. -/
def wsAcceptFixture : Conversation :=
  { policies := { allowV2 := true, allowV3 := true, whitespaceStartAKE := true } }

/-- Policy fixture of the invalid-version whitespace-tag test: `allowV3`
and `whitespaceStartAKE` but a tag advertising only v2. -/
def wsRejectFixture : Conversation :=
  { policies := { allowV3 := true, whitespaceStartAKE := true } }

/-- Policy fixture of the no-trigger whitespace-tag test: `allowV2`
without `whitespaceStartAKE`. -/
def wsNoTriggerFixture : Conversation :=
  { policies := { allowV2 := true } }

/-- Witness for C3: the three policy configurations of the whitespace-tag
tests. -/
theorem whitespace_tag_receive_witness :
    receiveTaggedPlaintext wsAcceptFixture true true
      = .ok (.v3, versionBytes .v3 ++ [msgTypeDHCommit])
    ∧ receiveTaggedPlaintext wsRejectFixture true false = .error .invalidVersion
    ∧ receiveTaggedPlaintext wsNoTriggerFixture true false
      = .error .invalidOTRMessage :=
  ⟨((whitespace_tag_receive wsAcceptFixture true true).1 rfl).1 rfl,
    ((whitespace_tag_receive wsRejectFixture true false).1 rfl).2.2 rfl rfl,
    (whitespace_tag_receive wsNoTriggerFixture true false).2 rfl⟩

/-- Modelled from the spec: the binary-message row of Receive (§4.1,
§7), whose implementation file is not among the provided sources. The
header's version bytes are validated against the conversation's version
(`errWrongProtocolVersion` on mismatch, `errInvalidOTRMessage` when the
header is too short or no version is negotiated); a data message (type
`0x03`) arriving while `msgState` is not `encrypted` fails with
`errEncryptedMessageWithNoSecureChannel`. Processing of messages that
pass these gates (the AKE engine and the data-message engine) is
abstracted as the parameter `dispatch`. -/
def receiveEncoded (c : Conversation)
    (dispatch : Nat → List Nat → Except otrError (List Nat))
    (msg : List Nat) : Except otrError (List Nat) :=
  match c.version, msg with
  | some v, b0 :: b1 :: mt :: rest =>
    if [b0, b1] ≠ versionBytes v then .error .wrongProtocolVersion
    else if mt = msgTypeData ∧ c.msgState ≠ .encrypted then
      .error .encryptedMessageWithNoSecureChannel
    else dispatch mt rest
  | _, _ => .error .invalidOTRMessage

/-- C7: Receive of a binary OTR data message (type `0x03`) while no secure
channel is established (`msgState` not `encrypted`) returns
`errEncryptedMessageWithNoSecureChannel`; the `Except` error carries no
outbound message. -/
theorem receive_data_message_no_secure_channel (c : Conversation)
    (dispatch : Nat → List Nat → Except otrError (List Nat))
    (v : otrVersion) (rest : List Nat) (hv : c.version = some v)
    (hs : c.msgState ≠ .encrypted) :
    receiveEncoded c dispatch (versionBytes v ++ [msgTypeData] ++ rest)
      = .error .encryptedMessageWithNoSecureChannel := by
  cases v <;> simp [receiveEncoded, hv, versionBytes, msgTypeData, hs]

/-- Conversation fixture of the data-message-before-AKE test: version v3,
default (plaintext) message state. -/
def preAKEFixture : Conversation :=
  { version := some .v3 }

/-- Witness for C7: the test's three-byte message `00 03 03`. -/
theorem receive_data_message_no_secure_channel_witness :
    preAKEFixture.version = some .v3
    ∧ preAKEFixture.msgState ≠ .encrypted
    ∧ receiveEncoded preAKEFixture (fun _ _ => .ok []) [0x00, 0x03, 0x03]
      = .error .encryptedMessageWithNoSecureChannel :=
  ⟨rfl, by decide,
    receive_data_message_no_secure_channel preAKEFixture (fun _ _ => .ok [])
      .v3 [] rfl (by decide)⟩

/-- The base64 alphabet. -/
def b64Alphabet : List Char :=
  "ABCDEFGHIJKLMNOPQRSTUVWXYZabcdefghijklmnopqrstuvwxyz0123456789+/".toList

/-- Character at index `i` of the base64 alphabet. -/
def b64Char (i : Nat) : Char :=
  b64Alphabet.getD i ('A')

/-- Standard base64 of a byte list, with `=` padding. -/
def base64Encode : List Nat → List Char
  | [] => []
  | [a] => [b64Char (a / 4), b64Char (a % 4 * 16), ('='), ('=')]
  | [a, b] =>
    [b64Char (a / 4), b64Char (a % 4 * 16 + b / 16), b64Char (b % 16 * 4), ('=')]
  | a :: b :: d :: rest =>
    [b64Char (a / 4), b64Char (a % 4 * 16 + b / 16),
      b64Char (b % 16 * 4 + d / 64), b64Char (d % 64)] ++ base64Encode rest

/-- Modelled from the spec: the outer envelope (§6) — base64 between
`?OTR:` and `.`. -/
def otrEnvelope (msg : List Nat) : List Char :=
  "?OTR:".toList ++ base64Encode msg ++ [('.')]

/-- Fragment index rendered as a 5-digit zero-padded decimal number. -/
def pad5 (k : Nat) : List Char :=
  List.replicate (5 - (Nat.toDigits 10 k).length) ('0') ++ Nat.toDigits 10 k

/-- One outbound fragment: `?OTR,<k>,<n>,<chunk>,` with 5-digit padded
`k` and `n` (§4.1). -/
def mkFragment (k n : Nat) (chunk : List Char) : List Char :=
  "?OTR,".toList ++ pad5 k ++ [(',')] ++ pad5 n ++ [(',')] ++ chunk ++ [(',')]

/-- Fuel-driven chunking; the fuel (the input length) suffices whenever
`size ≥ 1`. -/
def chunkifyAux (size : Nat) : Nat → List Char → List (List Char)
  | 0, _ => []
  | _ + 1, [] => []
  | fuel + 1, c :: cs =>
    (c :: cs).take size :: chunkifyAux size fuel ((c :: cs).drop size)

/-- Split a message into consecutive chunks of at most `size` characters. -/
def chunkify (size : Nat) (l : List Char) : List (List Char) :=
  chunkifyAux size l.length l

/-- Number the chunks from `k` upwards as fragments out of `n`. -/
def fragmentLoop (n : Nat) : Nat → List (List Char) → List (List Char)
  | _, [] => []
  | k, c :: cs => mkFragment k n c :: fragmentLoop n (k + 1) cs

/-- Modelled from the spec: outbound fragmentation (§4.1), whose
implementation file is not among the provided sources — when
`fragmentSize > 0` and the encoded message is longer, chop it into
`?OTR,<k>,<n>,<chunk>,` pieces with 1-indexed 5-digit headers; each piece
carries `fragmentSize − 18` payload characters (the test pins the
overhead: 17 header characters plus the trailing comma). -/
def fragment (fragmentSize : Nat) (msg : List Char) : List (List Char) :=
  if 0 < fragmentSize ∧ fragmentSize < msg.length then
    fragmentLoop (chunkify (fragmentSize - 18) msg).length 1
      (chunkify (fragmentSize - 18) msg)
  else [msg]

/-- Modelled from the spec: `encode` wraps an outbound message in the
base64 envelope and fragments the result. -/
def encode (c : Conversation) (msg : List Nat) : List (List Char) :=
  fragment c.fragmentSize (otrEnvelope msg)

theorem fragmentLoop_mem (n : Nat) (chunks : List (List Char)) :
    ∀ k f, f ∈ fragmentLoop n k chunks →
      ∃ j c, k ≤ j ∧ j < k + chunks.length ∧ f = mkFragment j n c := by
  induction chunks with
  | nil => intro k f h; simp [fragmentLoop] at h
  | cons c cs ih =>
    intro k f h
    simp only [fragmentLoop, List.mem_cons] at h
    rcases h with h | h
    · exact ⟨k, c, le_refl k, by simp, h⟩
    · obtain ⟨j, c', hj1, hj2, he⟩ := ih (k + 1) f h
      exact ⟨j, c', by omega, by simp only [List.length_cons]; omega, he⟩

/-- Conversation fixture of the fragmentation test: `fragmentSize = 22`. -/
def fragFixture : Conversation :=
  { version := some .v2, fragmentSize := 22 }

/-- The bytes of the plaintext `"one two three"`. -/
def oneTwoThreeBytes : List Nat :=
  ("one two three".toList).map Char.toNat

/-- The seven fragments the fragmentation test expects. -/
def expectedFragments : List (List Char) :=
  ["?OTR,00001,00007,?OTR,".toList,
    "?OTR,00002,00007,:b25,".toList,
    "?OTR,00003,00007,lIHR,".toList,
    "?OTR,00004,00007,3byB,".toList,
    "?OTR,00005,00007,0aHJ,".toList,
    "?OTR,00006,00007,lZQ=,".toList,
    "?OTR,00007,00007,=.,".toList]

/-- C5: when `fragmentSize > 0` (and larger than the 18-character
fragment overhead) and an encoded outbound message exceeds it, `encode`
splits the message into fragments of the form `?OTR,<k>,<n>,<chunk>,`
with 1-indexed 5-digit zero-padded `k ≤ n`; in particular, with
`fragmentSize = 22`, encoding the base64 envelope of `"one two three"`
produces exactly the seven fragments numbered `00001` through `00007`. -/
theorem encode_fragmentation_correct :
    (∀ (c : Conversation) (msg : List Nat), 18 < c.fragmentSize →
      c.fragmentSize < (otrEnvelope msg).length →
      ∀ f ∈ encode c msg, ∃ k chunk,
        1 ≤ k ∧ k ≤ (chunkify (c.fragmentSize - 18) (otrEnvelope msg)).length
        ∧ f = mkFragment k
            (chunkify (c.fragmentSize - 18) (otrEnvelope msg)).length chunk)
    ∧ encode fragFixture oneTwoThreeBytes = expectedFragments := by
  constructor
  · intro c msg h18 hlen f hf
    have h0 : 0 < c.fragmentSize ∧ c.fragmentSize < (otrEnvelope msg).length :=
      ⟨by omega, hlen⟩
    simp only [encode, fragment, if_pos h0] at hf
    obtain ⟨j, ch, hj1, hj2, he⟩ := fragmentLoop_mem _ _ 1 f hf
    exact ⟨j, ch, hj1, by omega, he⟩
  · decide

/-- Witness for C5: the general fragment-form statement instantiated on
the fragmentation test's conversation and message, at its first
fragment. -/
theorem encode_fragmentation_correct_witness :
    18 < fragFixture.fragmentSize
    ∧ fragFixture.fragmentSize < (otrEnvelope oneTwoThreeBytes).length
    ∧ "?OTR,00001,00007,?OTR,".toList ∈ encode fragFixture oneTwoThreeBytes
    ∧ ∃ k chunk,
        1 ≤ k
        ∧ k ≤ (chunkify (fragFixture.fragmentSize - 18)
            (otrEnvelope oneTwoThreeBytes)).length
        ∧ "?OTR,00001,00007,?OTR,".toList = mkFragment k
            (chunkify (fragFixture.fragmentSize - 18)
              (otrEnvelope oneTwoThreeBytes)).length chunk :=
  ⟨by decide, by decide, by decide,
    encode_fragmentation_correct.1 fragFixture oneTwoThreeBytes (by decide)
      (by decide) ("?OTR,00001,00007,?OTR,".toList) (by decide)⟩

end Otr3
